import Mathlib

/-!
Verification of the okx1205 trading bot's core logic: the Decision
Validator & Position-Sizing Engine (`getTradingDecision` post-processing in
`src/services/aiService.ts`), the Technical Indicator Engine
(`calcRSI`, `calcEMA`, … in `src/services/aiService.ts` and the variant in
`src/unnamed/part_003`), and the Execution Router dispatch section of the
trading loop (`runTradingLoop` in `src/unnamed/part_001`).

JavaScript numbers are modelled as exact rationals (ℚ); the claims under
study only involve comparisons far from float-rounding boundaries, and at
every concrete input used below the IEEE-754 evaluation agrees with the
rational one.  `parseFloat` outcomes are modelled as `Option ℚ` (with
`none` standing for `NaN`) for the sizer fields; for the stop-loss /
take-profit values of the execution router, where the distinction between
finite and infinite parses is load-bearing, the parse outcome is the
richer inductive `JSNum` which also carries the two infinities that
`parseFloat` can produce (e.g. on the input string "Infinity").
-/

namespace Okx

/-- `CONTRACT_VAL_ETH` from `src/unnamed/part_002` (constants.ts):
one ETH-USDT-SWAP contract is 0.1 ETH. -/
def CONTRACT_VAL_ETH : ℚ := 1 / 10

/-- `MIN_OPEN_VALUE` from `getTradingDecision` in `src/services/aiService.ts`:
the minimum admissible notional value of an order, 100 USDT. -/
def MIN_OPEN_VALUE : ℚ := 100

/-- A strategy stage record (`STRATEGY_STAGES` in `src/unnamed/part_002`):
only the two fields the sizer reads. -/
structure StageParams where
  leverage : ℚ
  risk_factor : ℚ

/-- Stage 1 of the low-risk `STRATEGY_STAGES` table in
`src/unnamed/part_002`: leverage cap 20, risk factor 0.8. -/
def STAGE_1 : StageParams := ⟨20, 8 / 10⟩

/-- The untrusted `trading_decision` fields of a raw AI decision, as read by
the validator: the free-form action token, and the `parseFloat` outcomes of
the confidence and leverage strings (`none` = `NaN`). -/
structure RawFields where
  action : String
  confidence : Option ℚ
  leverage : Option ℚ

/-- Input of the validator/sizer: the raw decision fields, the active stage
parameters, the available equity (`parseFloat(accountData.balance.availEq)`)
and the current price (`parseFloat(marketData.ticker.last)`). -/
structure SizerInput where
  decision : RawFields
  stage : StageParams
  availableEquity : ℚ
  price : ℚ

/-- An audit annotation appended to `decision.reasoning` by the sizer. -/
inductive AuditNote
  | undersizedValue   -- "[系统修正: 仓位价值 …U 过小 …已取消]"
  | tooFewContracts   -- "[系统修正: 合约数量不足 0.01 张]"
deriving DecidableEq, Repr

/-- The sanitized decision produced by the validator.  `size` is the numeric
value of the JS `decision.size` string (always a 2-decimal multiple, so the
value determines the string); `leverage?` is `some` of the numeric value of
`decision.leverage` when the sizer assigns it, `none` on the downgrade
branches that leave the field untouched. -/
structure ValidatedDecision where
  action : String
  size : ℚ
  leverage? : Option ℚ
  audit : List AuditNote
deriving DecidableEq, Repr

/-- JavaScript `String.prototype.toUpperCase()`: upper-case every character
(the action tokens at play are ASCII, where Lean's `Char.toUpper` agrees
with the JS conversion). -/
def jsToUpperCase (s : String) : String := ⟨s.data.map Char.toUpper⟩

/-- Step 1 of the validator (`aiService.ts` line 250):
`decision.trading_decision.action.toUpperCase()`.  Note the source performs
no trim and no unknown-token fallback. -/
def normAction (a : String) : String := jsToUpperCase a

/-- `parseFloat(decision.trading_decision.confidence) || 50`
(`aiService.ts` line 254): the default 50 kicks in exactly when the parse
is falsy, i.e. `NaN` or `0`. -/
def normConfidence (c : Option ℚ) : ℚ :=
  match c with
  | none => 50
  | some q => if q = 0 then 50 else q

/-- `isNaN(leverage) ? currentStageParams.leverage : leverage`
(`aiService.ts` line 255): only a `NaN` parse falls back to the stage cap. -/
def safeLeverage (l : Option ℚ) (stage : StageParams) : ℚ :=
  match l with
  | none => stage.leverage
  | some q => q

/-- Step A (`aiService.ts` line 262):
`availableEquity * risk_factor * (confidence / 100)`. -/
def targetMargin (inp : SizerInput) : ℚ :=
  inp.availableEquity * inp.stage.risk_factor *
    (normConfidence inp.decision.confidence / 100)

/-- Step B (`aiService.ts` line 266): `availableEquity * 0.90`. -/
def maxSafeMargin (inp : SizerInput) : ℚ :=
  inp.availableEquity * (9 / 10)

/-- `Math.min(targetMargin, maxSafeMargin)` (`aiService.ts` line 269). -/
def finalMargin0 (inp : SizerInput) : ℚ :=
  min (targetMargin inp) (maxSafeMargin inp)

/-- `positionValue = finalMargin * safeLeverage` before the rescue step
(`aiService.ts` line 274). -/
def positionValue0 (inp : SizerInput) : ℚ :=
  finalMargin0 inp * safeLeverage inp.decision.leverage inp.stage

/-- The minimum-notional rescue condition (`aiService.ts` lines 277-279):
`positionValue < 100 && availableEquity * 0.9 * safeLeverage > 100` with the
inner `confidence >= 40` check. -/
def rescueCond (inp : SizerInput) : Prop :=
  positionValue0 inp < MIN_OPEN_VALUE ∧
    inp.availableEquity * (9 / 10) * safeLeverage inp.decision.leverage inp.stage
      > MIN_OPEN_VALUE ∧
    normConfidence inp.decision.confidence ≥ 40

instance (inp : SizerInput) : Decidable (rescueCond inp) := by
  unfold rescueCond; infer_instance

/-- The position value after the rescue step (`aiService.ts` lines 277-284):
raised to exactly `MIN_OPEN_VALUE` when the rescue applies.  (The source
also rewrites `finalMargin`, which is not read again afterwards.) -/
def positionValue (inp : SizerInput) : ℚ :=
  if rescueCond inp then MIN_OPEN_VALUE else positionValue0 inp

/-- `Math.floor(positionValue / (CONTRACT_VAL_ETH * price) * 100) / 100`
(`aiService.ts` lines 297-300). -/
def numContracts (inp : SizerInput) : ℚ :=
  (⌊positionValue inp / (CONTRACT_VAL_ETH * inp.price) * 100⌋ : ℚ) / 100

/-- The post-processing / validation block of `getTradingDecision`
(`src/services/aiService.ts` lines 249-316), as a pure function of its
inputs. -/
def validate (inp : SizerInput) : ValidatedDecision :=
  let action := normAction inp.decision.action
  let lev := safeLeverage inp.decision.leverage inp.stage
  if action = "BUY" ∨ action = "SELL" then
    if positionValue inp < MIN_OPEN_VALUE then
      ⟨"HOLD", 0, none, [AuditNote.undersizedValue]⟩
    else if numContracts inp < 1 / 100 then
      ⟨"HOLD", 0, none, [AuditNote.tooFewContracts]⟩
    else
      ⟨action, numContracts inp, some lev, []⟩
  else
    ⟨action, 0, some lev, []⟩

/-! ### Execution router (`runTradingLoop` in `src/unnamed/part_001`, lines 74-136)

The dispatch section of the loop body, modelled as a pure function from the
resolved decision and the primary position to the sequence of exchange
calls attempted and the number of WARNING log entries emitted.  The
`okxService` collaborators (`updatePositionTPSL`, `executeOrder`,
`addMargin`) are opaque: a call is recorded as data, with exactly the
arguments the loop passes. -/

/-- A JavaScript number as produced by `parseFloat`: `NaN`, one of the two
infinities (e.g. `parseFloat("Infinity")`), or a finite value. -/
inductive JSNum
  | nan
  | posInf
  | negInf
  | fin (q : ℚ)
deriving DecidableEq, Repr

/-- A proposed stop-loss / take-profit value (`string | number | undefined`
in the source): `undefined`/`null`, the empty string, or any other value
together with the `parseFloat(p.toString())` outcome. -/
inductive PropVal
  | undef
  | emptyStr
  | val (parsed : JSNum)
deriving DecidableEq, Repr

/-- The `isValid` helper of `runTradingLoop` (`src/unnamed/part_001` lines
84-88): `p === undefined || p === null || p === ''` is rejected, then
`!isNaN(val) && val > 0` on `val = parseFloat(p.toString())`.  Note there is
no finiteness check: `Infinity > 0` holds in JS. -/
def isValid : PropVal → Bool
  | .undef => false
  | .emptyStr => false
  | .val .nan => false
  | .val .posInf => true
  | .val .negInf => false
  | .val (.fin q) => decide (0 < q)

/-- A position side as reported by the exchange. -/
inductive PosSide
  | long
  | short
  | net
deriving DecidableEq, Repr

/-- The fields of the primary position read by the dispatch logic
(`posSide`, `pos`, `uplRatio`, `upl`, the latter three as their
`parseFloat` values). -/
structure Position where
  posSide : PosSide
  pos : ℚ
  uplRatio : ℚ
  upl : ℚ
deriving DecidableEq, Repr

/-- One call to the exchange collaborator, with the arguments the loop
passes (config and instrument id omitted: they are constants). -/
inductive ExchangeCall
  | updateTPSL (posSide : PosSide) (sz : ℚ) (sl tp : Option PropVal)
  | executeOrder (action : String) (size : ℚ)
  | addMargin (posSide : PosSide) (amt : ℚ)
deriving DecidableEq, Repr

/-- The decision fields the dispatch section reads: the resolved action and
size, and the raw `trading_decision.stop_loss` / `profit_target` values. -/
structure ExecDecision where
  action : String
  size : ℚ
  stop_loss : PropVal
  profit_target : PropVal
deriving DecidableEq, Repr

/-- Exchange calls attempted plus WARNING log entries emitted. -/
structure ExecOutcome where
  calls : List ExchangeCall
  warnings : ℕ
deriving DecidableEq, Repr

/-- The primary `if decision.action === 'UPDATE_TPSL' … else if
(decision.action !== 'HOLD') …` dispatch (`part_001` lines 78-117). -/
def dispatchMain (dec : ExecDecision) (pos? : Option Position) : ExecOutcome :=
  if dec.action = "UPDATE_TPSL" then
    match pos? with
    | none => ⟨[], 0⟩
    | some p =>
      if isValid dec.stop_loss || isValid dec.profit_target then
        if p.posSide = PosSide.net then
          ⟨[], 1⟩  -- addLog('WARNING', '单向持仓模式不支持自动更新止损/止盈')
        else
          ⟨[ExchangeCall.updateTPSL p.posSide p.pos
              (if isValid dec.stop_loss then some dec.stop_loss else none)
              (if isValid dec.profit_target then some dec.profit_target else none)], 0⟩
      else ⟨[], 0⟩
  else if dec.action = "HOLD" then ⟨[], 0⟩
  else ⟨[ExchangeCall.executeOrder dec.action dec.size], 0⟩

/-- The rolling/pyramiding block (`part_001` lines 120-136): on `HOLD` with
a position whose `uplRatio * 100 ≥ 50`, add margin of half the unrealized
profit (the source formats `upl * 0.5` with `toFixed(2)`; the amount is
modelled by its value). -/
def dispatchRolling (dec : ExecDecision) (pos? : Option Position) : List ExchangeCall :=
  if dec.action = "HOLD" then
    match pos? with
    | some p =>
      if p.uplRatio * 100 ≥ 50 then [ExchangeCall.addMargin p.posSide (p.upl / 2)]
      else []
    | none => []
  else []

/-- The full dispatch section of one loop iteration. -/
def dispatch (dec : ExecDecision) (pos? : Option Position) : ExecOutcome :=
  ⟨(dispatchMain dec pos?).calls ++ dispatchRolling dec pos?,
   (dispatchMain dec pos?).warnings⟩

/-! ### Technical indicators -/

/-- `calcRSI` from `src/services/aiService.ts` lines 7-21: average gain and
loss over the first `period` deltas (`if (change > 0) gains += change; else
losses -= change`), then directly the RSI formula — this variant has no
Wilder smoothing loop. -/
def calcRSI_ai (prices : List ℚ) (period : ℕ) : ℚ :=
  if prices.length < period + 1 then 50
  else
    let init := (List.range' 1 period).foldl
      (fun gl i =>
        if 0 < prices.getD i 0 - prices.getD (i - 1) 0 then
          (gl.1 + (prices.getD i 0 - prices.getD (i - 1) 0), gl.2)
        else (gl.1, gl.2 - (prices.getD i 0 - prices.getD (i - 1) 0)))
      ((0 : ℚ), (0 : ℚ))
    if init.2 / period = 0 then 100
    else 100 - 100 / (1 + (init.1 / period) / (init.2 / period))

/-- `calcRSI` from `src/unnamed/part_003` lines 25-49 (same in `part_004`):
the initial averages over the first `period` deltas followed by the Wilder
smoothing loop `for (i = period + 1; i < prices.length; i++)` with
`avgGain = (avgGain * (period - 1) + gain) / period` (same for loss). -/
def calcRSI (prices : List ℚ) (period : ℕ) : ℚ :=
  if prices.length < period + 1 then 50
  else
    let init := (List.range' 1 period).foldl
      (fun gl i =>
        if 0 < prices.getD i 0 - prices.getD (i - 1) 0 then
          (gl.1 + (prices.getD i 0 - prices.getD (i - 1) 0), gl.2)
        else (gl.1, gl.2 - (prices.getD i 0 - prices.getD (i - 1) 0)))
      ((0 : ℚ), (0 : ℚ))
    let s := (List.range' (period + 1) (prices.length - (period + 1))).foldl
      (fun s i =>
        ((s.1 * ((period : ℚ) - 1) +
            (if 0 < prices.getD i 0 - prices.getD (i - 1) 0 then
              prices.getD i 0 - prices.getD (i - 1) 0 else 0)) / period,
         (s.2 * ((period : ℚ) - 1) +
            (if prices.getD i 0 - prices.getD (i - 1) 0 < 0 then
              -(prices.getD i 0 - prices.getD (i - 1) 0) else 0)) / period))
      (init.1 / period, init.2 / period)
    if s.2 = 0 then 100 else 100 - 100 / (1 + s.1 / s.2)

/-- The list of consecutive deltas of a closing-price series. -/
def priceDeltas : List ℚ → List ℚ
  | a :: b :: t => (b - a) :: priceDeltas (b :: t)
  | _ => []

/-- One step of Wilder smoothing, as worded in the spec (§4.1):
`avgGain = (avgGain*(period-1)+gain)/period` (same for loss), where the
gain (loss) of a delta is its positive (negative) part. -/
def wilderStep (period : ℕ) (s : ℚ × ℚ) (change : ℚ) : ℚ × ℚ :=
  ((s.1 * ((period : ℚ) - 1) + max change 0) / period,
   (s.2 * ((period : ℚ) - 1) + max (-change) 0) / period)

/-- The spec's reference RSI (spec §4.1): fewer than `period + 1` closes
give the neutral 50; otherwise average gain/average loss over the first
`period` deltas, Wilder smoothing over every remaining delta, then 100 if
`avgLoss = 0`, else `100 - 100/(1 + avgGain/avgLoss)`. -/
def rsiSpec (prices : List ℚ) (period : ℕ) : ℚ :=
  if prices.length < period + 1 then 50
  else
    let ds := priceDeltas prices
    let avgGain := ((ds.take period).map fun c => max c 0).sum / period
    let avgLoss := ((ds.take period).map fun c => max (-c) 0).sum / period
    let s := (ds.drop period).foldl (wilderStep period) (avgGain, avgLoss)
    if s.2 = 0 then 100 else 100 - 100 / (1 + s.1 / s.2)

/-- `calcEMA` from `src/services/aiService.ts` lines 23-31 (identical in
`part_003`/`part_004`).  On a series shorter than the period the source
returns `prices[prices.length - 1]`, which on the empty series is the
out-of-bounds read `prices[-1] = undefined` — modelled as `none`. -/
def calcEMA (prices : List ℚ) (period : ℕ) : Option ℚ :=
  if prices.length < period then
    prices.getLast?
  else
    match prices with
    | [] => none  -- `prices[0]` is undefined (reachable only for period = 0)
    | p0 :: rest =>
      some (rest.foldl
        (fun ema p => p * (2 / ((period : ℚ) + 1)) + ema * (1 - 2 / ((period : ℚ) + 1)))
        p0)

end Okx

/-- **C5**: on the example input availableEquity = 50, riskFraction = 0.8,
confidence = 100, leverage = 20, price = 3000, contract multiplier = 0.1
with a BUY action, the sizer computes targetMargin = 40, maxSafeMargin = 45,
finalMargin = 40, notional = 800 and a final contract size of exactly
2.66, keeping the BUY action. -/
theorem Okx.example_sizing_scenario :
    Okx.targetMargin ⟨⟨"BUY", some 100, some 20⟩, Okx.STAGE_1, 50, 3000⟩ = 40 ∧
    Okx.maxSafeMargin ⟨⟨"BUY", some 100, some 20⟩, Okx.STAGE_1, 50, 3000⟩ = 45 ∧
    Okx.finalMargin0 ⟨⟨"BUY", some 100, some 20⟩, Okx.STAGE_1, 50, 3000⟩ = 40 ∧
    Okx.positionValue ⟨⟨"BUY", some 100, some 20⟩, Okx.STAGE_1, 50, 3000⟩ = 800 ∧
    Okx.validate ⟨⟨"BUY", some 100, some 20⟩, Okx.STAGE_1, 50, 3000⟩ =
      ⟨"BUY", 266 / 100, some 20, []⟩ := by
  have ht : Okx.targetMargin ⟨⟨"BUY", some 100, some 20⟩, Okx.STAGE_1, 50, 3000⟩ = 40 := by
    norm_num [Okx.targetMargin, Okx.normConfidence, Okx.STAGE_1]
  have hm : Okx.maxSafeMargin ⟨⟨"BUY", some 100, some 20⟩, Okx.STAGE_1, 50, 3000⟩ = 45 := by
    norm_num [Okx.maxSafeMargin]
  have hf : Okx.finalMargin0 ⟨⟨"BUY", some 100, some 20⟩, Okx.STAGE_1, 50, 3000⟩ = 40 := by
    rw [Okx.finalMargin0, ht, hm]; norm_num
  have hpv0 : Okx.positionValue0 ⟨⟨"BUY", some 100, some 20⟩, Okx.STAGE_1, 50, 3000⟩ = 800 := by
    rw [Okx.positionValue0, hf]; norm_num [Okx.safeLeverage]
  have hresc : ¬ Okx.rescueCond ⟨⟨"BUY", some 100, some 20⟩, Okx.STAGE_1, 50, 3000⟩ := by
    rw [Okx.rescueCond, hpv0]; norm_num [Okx.MIN_OPEN_VALUE]
  have hpv : Okx.positionValue ⟨⟨"BUY", some 100, some 20⟩, Okx.STAGE_1, 50, 3000⟩ = 800 := by
    rw [Okx.positionValue, if_neg hresc, hpv0]
  have hfloor : (⌊(800 : ℚ) / (Okx.CONTRACT_VAL_ETH * 3000) * 100⌋ : ℤ) = 266 := by
    rw [Int.floor_eq_iff]; norm_num [Okx.CONTRACT_VAL_ETH]
  have hnc : Okx.numContracts ⟨⟨"BUY", some 100, some 20⟩, Okx.STAGE_1, 50, 3000⟩ = 266 / 100 := by
    rw [Okx.numContracts, hpv]
    norm_num [hfloor]
  refine ⟨ht, hm, hf, hpv, ?_⟩
  rw [Okx.validate]
  have ha : Okx.normAction "BUY" = "BUY" := by decide
  simp only [ha, hpv, hnc, Okx.MIN_OPEN_VALUE, Okx.safeLeverage]
  norm_num

/-- **C1 (amended)**: the final admissibility check compares the
pre-rounding position value `finalMargin * leverage` against
`MIN_OPEN_VALUE`: whenever a BUY/SELL decision's position value is below
the floor it is downgraded to HOLD with size 0 and the undersize audit
note, and any surviving BUY/SELL order has realized notional
(`size * contractMultiplier * price`) above
`MIN_OPEN_VALUE - contractMultiplier * price / 100` — the loss to the
two-decimal floor of the contract quantity is less than one size
increment, but the realized notional itself can end up below the 100
floor. -/
theorem Okx.sizer_min_notional (inp : Okx.SizerInput) (hp : 0 < inp.price) :
    ((Okx.validate inp).action = "BUY" ∨ (Okx.validate inp).action = "SELL" →
      Okx.MIN_OPEN_VALUE - Okx.CONTRACT_VAL_ETH * inp.price / 100 <
        (Okx.validate inp).size * (Okx.CONTRACT_VAL_ETH * inp.price)) ∧
    ((Okx.normAction inp.decision.action = "BUY" ∨
        Okx.normAction inp.decision.action = "SELL") →
      Okx.positionValue inp < Okx.MIN_OPEN_VALUE →
      Okx.validate inp = ⟨"HOLD", 0, none, [Okx.AuditNote.undersizedValue]⟩) := by
  constructor
  · intro hbs
    by_cases hA : Okx.normAction inp.decision.action = "BUY" ∨
        Okx.normAction inp.decision.action = "SELL"
    · by_cases h2 : Okx.positionValue inp < Okx.MIN_OPEN_VALUE
      · rw [Okx.validate] at hbs
        simp only [if_pos hA, if_pos h2] at hbs
        rcases hbs with h | h <;> exact absurd h (by decide)
      · by_cases h3 : Okx.numContracts inp < 1 / 100
        · rw [Okx.validate] at hbs
          simp only [if_pos hA, if_neg h2, if_pos h3] at hbs
          rcases hbs with h | h <;> exact absurd h (by decide)
        · rw [Okx.validate]
          simp only [if_pos hA, if_neg h2, if_neg h3]
          push_neg at h2
          have hcp : 0 < Okx.CONTRACT_VAL_ETH * inp.price := by
            rw [Okx.CONTRACT_VAL_ETH]; positivity
          set x : ℚ :=
            Okx.positionValue inp / (Okx.CONTRACT_VAL_ETH * inp.price) * 100 with hxdef
          have hfl : x - 1 < (⌊x⌋ : ℚ) := Int.sub_one_lt_floor x
          have hx : x * (Okx.CONTRACT_VAL_ETH * inp.price) / 100 =
              Okx.positionValue inp := by
            rw [hxdef]; field_simp
          have h5 : (x - 1) * (Okx.CONTRACT_VAL_ETH * inp.price) <
              (⌊x⌋ : ℚ) * (Okx.CONTRACT_VAL_ETH * inp.price) :=
            mul_lt_mul_of_pos_right hfl hcp
          rw [Okx.numContracts]
          rw [← hxdef]
          linarith [h2, h5, hx]
    · rw [Okx.validate] at hbs
      simp only [if_neg hA] at hbs
      exact absurd hbs hA
  · intro hA hlt
    rw [Okx.validate]
    simp only [if_pos hA, if_pos hlt]

/-- Witness for `Okx.sizer_min_notional` at the example input of C5. -/
theorem Okx.sizer_min_notional_witness :
    (0 : ℚ) < 3000 ∧
    (((Okx.validate ⟨⟨"BUY", some 100, some 20⟩, Okx.STAGE_1, 50, 3000⟩).action = "BUY" ∨
        (Okx.validate ⟨⟨"BUY", some 100, some 20⟩, Okx.STAGE_1, 50, 3000⟩).action = "SELL" →
      Okx.MIN_OPEN_VALUE - Okx.CONTRACT_VAL_ETH * (3000 : ℚ) / 100 <
        (Okx.validate ⟨⟨"BUY", some 100, some 20⟩, Okx.STAGE_1, 50, 3000⟩).size *
          (Okx.CONTRACT_VAL_ETH * (3000 : ℚ))) ∧
    ((Okx.normAction "BUY" = "BUY" ∨ Okx.normAction "BUY" = "SELL") →
      Okx.positionValue ⟨⟨"BUY", some 100, some 20⟩, Okx.STAGE_1, 50, 3000⟩ <
        Okx.MIN_OPEN_VALUE →
      Okx.validate ⟨⟨"BUY", some 100, some 20⟩, Okx.STAGE_1, 50, 3000⟩ =
        ⟨"HOLD", 0, none, [Okx.AuditNote.undersizedValue]⟩)) :=
  ⟨by norm_num, Okx.sizer_min_notional ⟨⟨"BUY", some 100, some 20⟩, Okx.STAGE_1, 50, 3000⟩ (by norm_num)⟩

/-- **C1 (counterexample)**: on availableEquity = 10, confidence = 50,
leverage = 20, price = 3000 with a BUY action, the rescue raises the
position value to exactly 100, the contract count floors to 0.33, and the
validator keeps the BUY action although the realized notional
0.33 × 0.1 × 3000 = 99 is strictly below `MIN_OPEN_VALUE` — refuting the
claim that the output never carries a BUY/SELL with notional below 100. -/
theorem Okx.sizer_min_notional_cex :
    (Okx.validate ⟨⟨"BUY", some 50, some 20⟩, Okx.STAGE_1, 10, 3000⟩).action = "BUY" ∧
    (Okx.validate ⟨⟨"BUY", some 50, some 20⟩, Okx.STAGE_1, 10, 3000⟩).size *
      (Okx.CONTRACT_VAL_ETH * 3000) = 99 ∧
    (99 : ℚ) < Okx.MIN_OPEN_VALUE := by
  have hpv0 : Okx.positionValue0 ⟨⟨"BUY", some 50, some 20⟩, Okx.STAGE_1, 10, 3000⟩ = 80 := by
    rw [Okx.positionValue0, Okx.finalMargin0]
    norm_num [Okx.targetMargin, Okx.maxSafeMargin, Okx.normConfidence, Okx.safeLeverage,
      Okx.STAGE_1]
  have hresc : Okx.rescueCond ⟨⟨"BUY", some 50, some 20⟩, Okx.STAGE_1, 10, 3000⟩ := by
    rw [Okx.rescueCond, hpv0]
    norm_num [Okx.MIN_OPEN_VALUE, Okx.safeLeverage, Okx.normConfidence, Okx.STAGE_1]
  have hpv : Okx.positionValue ⟨⟨"BUY", some 50, some 20⟩, Okx.STAGE_1, 10, 3000⟩ = 100 := by
    rw [Okx.positionValue, if_pos hresc, Okx.MIN_OPEN_VALUE]
  have hfloor : (⌊(100 : ℚ) / (Okx.CONTRACT_VAL_ETH * 3000) * 100⌋ : ℤ) = 33 := by
    rw [Int.floor_eq_iff]; norm_num [Okx.CONTRACT_VAL_ETH]
  have hnc : Okx.numContracts ⟨⟨"BUY", some 50, some 20⟩, Okx.STAGE_1, 10, 3000⟩ = 33 / 100 := by
    rw [Okx.numContracts, hpv]
    norm_num [hfloor]
  have hval : Okx.validate ⟨⟨"BUY", some 50, some 20⟩, Okx.STAGE_1, 10, 3000⟩ =
      ⟨"BUY", 33 / 100, some 20, []⟩ := by
    rw [Okx.validate]
    have ha : Okx.normAction "BUY" = "BUY" := by decide
    simp only [ha, hpv, hnc, Okx.MIN_OPEN_VALUE, Okx.safeLeverage]
    norm_num
  rw [hval]
  norm_num [Okx.CONTRACT_VAL_ETH, Okx.MIN_OPEN_VALUE]

/-- **C2 (amended)**: the validator only upper-cases the action token (no
trim, no unknown→HOLD fallback); a token that does not normalize to
BUY/SELL is passed through unchanged with size 0 and no audit note, and
the execution loop calls `executeOrder` for every action other than
`UPDATE_TPSL` and `HOLD`, so an unrecognized token is forwarded to the
exchange layer rather than being held. -/
theorem Okx.action_normalization_passthrough :
    (∀ a : String, Okx.normAction a = Okx.jsToUpperCase a) ∧
    (∀ inp : Okx.SizerInput,
      ¬(Okx.normAction inp.decision.action = "BUY" ∨
          Okx.normAction inp.decision.action = "SELL") →
        (Okx.validate inp).action = Okx.normAction inp.decision.action ∧
        (Okx.validate inp).size = 0 ∧ (Okx.validate inp).audit = []) ∧
    (∀ (dec : Okx.ExecDecision) (pos? : Option Okx.Position),
      dec.action ≠ "UPDATE_TPSL" → dec.action ≠ "HOLD" →
        Okx.ExchangeCall.executeOrder dec.action dec.size ∈
          (Okx.dispatch dec pos?).calls) := by
  refine ⟨fun a => rfl, fun inp h => ?_, fun dec pos? h1 h2 => ?_⟩
  · rw [Okx.validate]
    simp only [if_neg h]
    exact ⟨trivial, trivial, trivial⟩
  · rw [Okx.dispatch, Okx.dispatchMain.eq_def]
    simp only [if_neg h1, if_neg h2]
    exact List.mem_append_left _ (List.mem_singleton_self _)

/-- Witness for `Okx.action_normalization_passthrough`. -/
theorem Okx.action_normalization_passthrough_witness :
    ¬(Okx.normAction "close" = "BUY" ∨ Okx.normAction "close" = "SELL") ∧
    (Okx.validate ⟨⟨"close", some 50, some 20⟩, Okx.STAGE_1, 10, 3000⟩).action =
      Okx.normAction "close" ∧
    Okx.ExchangeCall.executeOrder "SELL" 1 ∈
      (Okx.dispatch ⟨"SELL", 1, Okx.PropVal.undef, Okx.PropVal.undef⟩ none).calls :=
  ⟨by decide,
   (Okx.action_normalization_passthrough.2.1
      ⟨⟨"close", some 50, some 20⟩, Okx.STAGE_1, 10, 3000⟩ (by decide)).1,
   Okx.action_normalization_passthrough.2.2
      ⟨"SELL", 1, Okx.PropVal.undef, Okx.PropVal.undef⟩ none (by decide) (by decide)⟩

/-- **C2 (counterexample)**: the raw token "wait" normalizes to "WAIT" —
not to "HOLD", and with an empty audit trail — and the execution loop, on
an action "WAIT", calls `executeOrder` on the exchange: an unrecognized
token is neither treated as HOLD nor kept from execution. -/
theorem Okx.action_normalization_cex :
    (Okx.validate ⟨⟨"wait", some 50, some 20⟩, Okx.STAGE_1, 10, 3000⟩).action = "WAIT" ∧
    ("WAIT" : String) ≠ "HOLD" ∧
    (Okx.validate ⟨⟨"wait", some 50, some 20⟩, Okx.STAGE_1, 10, 3000⟩).audit = [] ∧
    (Okx.dispatch ⟨"WAIT", 0, Okx.PropVal.undef, Okx.PropVal.undef⟩ none).calls =
      [Okx.ExchangeCall.executeOrder "WAIT" 0] := by
  refine ⟨?_, by decide, ?_, by decide⟩
  · rw [Okx.validate]
    simp only [if_neg (show ¬(Okx.normAction "wait" = "BUY" ∨
        Okx.normAction "wait" = "SELL") by decide)]
    decide
  · rw [Okx.validate]
    simp only [if_neg (show ¬(Okx.normAction "wait" = "BUY" ∨
        Okx.normAction "wait" = "SELL") by decide)]

/-- **C3 (amended)**: the parsed confidence falls back to 50 exactly when
`parseFloat` yields `NaN` or `0` (the `|| 50` default); any other value,
including negative values and values above 100, is kept.  The parsed
leverage falls back to the stage cap exactly when `parseFloat` yields
`NaN`; any other value, including 0 and negatives, is kept — so the
normalized output can carry a confidence outside [0,100] and a
non-positive leverage. -/
theorem Okx.numeric_parse_defaults :
    (∀ q : ℚ, q ≠ 0 → Okx.normConfidence (some q) = q) ∧
    Okx.normConfidence none = 50 ∧
    Okx.normConfidence (some 0) = 50 ∧
    (∀ (st : Okx.StageParams) (q : ℚ), Okx.safeLeverage (some q) st = q) ∧
    (∀ st : Okx.StageParams, Okx.safeLeverage none st = st.leverage) := by
  refine ⟨fun q hq => ?_, rfl, ?_, fun st q => rfl, fun st => rfl⟩
  · simp [Okx.normConfidence, hq]
  · simp [Okx.normConfidence]

/-- Witness for `Okx.numeric_parse_defaults`. -/
theorem Okx.numeric_parse_defaults_witness :
    Okx.normConfidence (some 7) = 7 ∧ Okx.safeLeverage (some 3) Okx.STAGE_1 = 3 :=
  ⟨Okx.numeric_parse_defaults.1 7 (by norm_num),
   Okx.numeric_parse_defaults.2.2.2.1 Okx.STAGE_1 3⟩

/-- **C3 (counterexample)**: a confidence field parsing to 150 is used as
150 (outside [0,100]), and a leverage field parsing to 0 is carried into
the output decision as leverage 0 — refuting both the clamping of
confidence to [0,100] and the strict positivity of the output leverage. -/
theorem Okx.numeric_parse_defaults_cex :
    Okx.normConfidence (some 150) = 150 ∧
    ¬(Okx.normConfidence (some 150) ≤ 100) ∧
    (Okx.validate ⟨⟨"hold", some 50, some 0⟩, Okx.STAGE_1, 10, 3000⟩).leverage? =
      some 0 := by
  refine ⟨by norm_num [Okx.normConfidence], by norm_num [Okx.normConfidence], ?_⟩
  rw [Okx.validate]
  simp only [if_neg (show ¬(Okx.normAction "hold" = "BUY" ∨
      Okx.normAction "hold" = "SELL") by decide)]
  rfl

/-- **C4 (amended)**: with available equity ≤ 0 the computed final margin
is always ≤ 0, and — provided the normalized leverage is positive (a
`NaN` leverage field falls back to the positive stage cap) — the position
value stays below `MIN_OPEN_VALUE`, the rescue cannot apply, and any
BUY/SELL action is downgraded to HOLD at the final admissibility check.  A
leverage field parsing to a negative number escapes the downgrade (see the
counterexample). -/
theorem Okx.nonpos_equity_downgrade (inp : Okx.SizerInput)
    (h : inp.availableEquity ≤ 0) :
    Okx.finalMargin0 inp ≤ 0 ∧
    (0 < Okx.safeLeverage inp.decision.leverage inp.stage →
      (Okx.normAction inp.decision.action = "BUY" ∨
        Okx.normAction inp.decision.action = "SELL") →
      Okx.validate inp = ⟨"HOLD", 0, none, [Okx.AuditNote.undersizedValue]⟩) := by
  have hms : Okx.maxSafeMargin inp ≤ 0 := by
    rw [Okx.maxSafeMargin]; linarith
  have hfm : Okx.finalMargin0 inp ≤ 0 := le_trans (min_le_right _ _) hms
  refine ⟨hfm, fun hlev hact => ?_⟩
  have hpv0 : Okx.positionValue0 inp ≤ 0 := by
    rw [Okx.positionValue0]
    exact mul_nonpos_iff.2 (Or.inr ⟨hfm, le_of_lt hlev⟩)
  have hresc : ¬ Okx.rescueCond inp := by
    rw [Okx.rescueCond]
    rintro ⟨-, hB, -⟩
    rw [Okx.MIN_OPEN_VALUE] at hB
    nlinarith
  have hpv : Okx.positionValue inp < Okx.MIN_OPEN_VALUE := by
    rw [Okx.positionValue, if_neg hresc, Okx.MIN_OPEN_VALUE]
    linarith
  rw [Okx.validate]
  simp only [if_pos hact, if_pos hpv]

/-- Witness for `Okx.nonpos_equity_downgrade`: equity −5, BUY at
confidence 50 and leverage 20 is downgraded to HOLD. -/
theorem Okx.nonpos_equity_downgrade_witness :
    ((-5 : ℚ) ≤ 0) ∧
    (Okx.finalMargin0 ⟨⟨"BUY", some 50, some 20⟩, Okx.STAGE_1, -5, 3000⟩ ≤ 0 ∧
      (0 < Okx.safeLeverage (some 20) Okx.STAGE_1 →
        (Okx.normAction "BUY" = "BUY" ∨ Okx.normAction "BUY" = "SELL") →
        Okx.validate ⟨⟨"BUY", some 50, some 20⟩, Okx.STAGE_1, -5, 3000⟩ =
          ⟨"HOLD", 0, none, [Okx.AuditNote.undersizedValue]⟩)) :=
  ⟨by norm_num,
   Okx.nonpos_equity_downgrade ⟨⟨"BUY", some 50, some 20⟩, Okx.STAGE_1, -5, 3000⟩
     (by norm_num)⟩

/-- **C4 (counterexample)**: with available equity −10 and a leverage field
parsing to −20, the negative final margin times the negative leverage
yields position value 180 ≥ 100, the admissibility check passes, and the
BUY survives with size 0.60 — refuting "always downgrades to HOLD at step
7 regardless of the other RawDecision fields". -/
theorem Okx.nonpos_equity_downgrade_cex :
    ((-10 : ℚ) ≤ 0) ∧
    (Okx.validate ⟨⟨"BUY", some 50, some (-20)⟩, Okx.STAGE_1, -10, 3000⟩).action =
      "BUY" := by
  refine ⟨by norm_num, ?_⟩
  have hpv0 : Okx.positionValue0 ⟨⟨"BUY", some 50, some (-20)⟩, Okx.STAGE_1, -10, 3000⟩ =
      180 := by
    rw [Okx.positionValue0, Okx.finalMargin0]
    norm_num [Okx.targetMargin, Okx.maxSafeMargin, Okx.normConfidence, Okx.safeLeverage,
      Okx.STAGE_1]
  have hresc : ¬ Okx.rescueCond ⟨⟨"BUY", some 50, some (-20)⟩, Okx.STAGE_1, -10, 3000⟩ := by
    rw [Okx.rescueCond, hpv0]
    rintro ⟨hA, -, -⟩
    rw [Okx.MIN_OPEN_VALUE] at hA
    norm_num at hA
  have hpv : Okx.positionValue ⟨⟨"BUY", some 50, some (-20)⟩, Okx.STAGE_1, -10, 3000⟩ =
      180 := by
    rw [Okx.positionValue, if_neg hresc, hpv0]
  have hfloor : (⌊(180 : ℚ) / (Okx.CONTRACT_VAL_ETH * 3000) * 100⌋ : ℤ) = 60 := by
    rw [Int.floor_eq_iff]; norm_num [Okx.CONTRACT_VAL_ETH]
  have hnc : Okx.numContracts ⟨⟨"BUY", some 50, some (-20)⟩, Okx.STAGE_1, -10, 3000⟩ =
      60 / 100 := by
    rw [Okx.numContracts, hpv]
    norm_num [hfloor]
  rw [Okx.validate]
  have ha : Okx.normAction "BUY" = "BUY" := by decide
  simp only [ha, hpv, hnc, Okx.MIN_OPEN_VALUE]
  norm_num

/-- **C10**: a confidence field that parses to exactly 0 is normalized to
50 by the `|| 50` default, and the sizer's target margin is computed as if
the decision had medium confidence:
`availableEquity * risk_factor * (50/100)`. -/
theorem Okx.zero_confidence_is_medium (inp : Okx.SizerInput)
    (h : inp.decision.confidence = some 0) :
    Okx.normConfidence inp.decision.confidence = 50 ∧
    Okx.targetMargin inp =
      inp.availableEquity * inp.stage.risk_factor * (50 / 100) := by
  have h1 : Okx.normConfidence inp.decision.confidence = 50 := by
    rw [h]; simp [Okx.normConfidence]
  exact ⟨h1, by rw [Okx.targetMargin, h1]⟩

/-- Witness for `Okx.zero_confidence_is_medium`. -/
theorem Okx.zero_confidence_is_medium_witness :
    ((⟨⟨"BUY", some 0, some 20⟩, Okx.STAGE_1, 50, 3000⟩ :
        Okx.SizerInput).decision.confidence = some 0) ∧
    (Okx.normConfidence (⟨⟨"BUY", some 0, some 20⟩, Okx.STAGE_1, 50, 3000⟩ :
        Okx.SizerInput).decision.confidence = 50 ∧
      Okx.targetMargin ⟨⟨"BUY", some 0, some 20⟩, Okx.STAGE_1, 50, 3000⟩ =
        (50 : ℚ) * Okx.STAGE_1.risk_factor * (50 / 100)) :=
  ⟨rfl, Okx.zero_confidence_is_medium ⟨⟨"BUY", some 0, some 20⟩, Okx.STAGE_1, 50, 3000⟩ rfl⟩

/-- **C7 (amended)**: `UPDATE_TPSL` on a net-mode position performs zero
exchange calls in every case, and yields exactly one warning precisely
when at least one of the proposed stop-loss / take-profit values is valid;
when neither is valid the branch is skipped silently, with no warning. -/
theorem Okx.net_mode_tpsl (dec : Okx.ExecDecision) (p : Okx.Position)
    (ha : dec.action = "UPDATE_TPSL") (hn : p.posSide = Okx.PosSide.net) :
    (Okx.dispatch dec (some p)).calls = [] ∧
    ((Okx.dispatch dec (some p)).warnings = 1 ↔
      (Okx.isValid dec.stop_loss || Okx.isValid dec.profit_target) = true) := by
  have hhold : dec.action ≠ "HOLD" := by rw [ha]; decide
  rw [Okx.dispatch, Okx.dispatchMain.eq_def, Okx.dispatchRolling.eq_def]
  simp only [if_pos ha, if_neg hhold]
  by_cases hv : (Okx.isValid dec.stop_loss || Okx.isValid dec.profit_target) = true
  · simp only [hv, if_true, if_pos hn]
    simp
  · simp only [if_neg hv]
    simp [hv]

/-- Witness for `Okx.net_mode_tpsl`: with a valid proposed stop-loss, the
net-mode branch emits one warning and no exchange call. -/
theorem Okx.net_mode_tpsl_witness :
    (Okx.dispatch ⟨"UPDATE_TPSL", 0, Okx.PropVal.val (Okx.JSNum.fin 2500), Okx.PropVal.undef⟩
        (some ⟨Okx.PosSide.net, 1, 0, 0⟩)).calls = [] ∧
    ((Okx.dispatch ⟨"UPDATE_TPSL", 0, Okx.PropVal.val (Okx.JSNum.fin 2500), Okx.PropVal.undef⟩
        (some ⟨Okx.PosSide.net, 1, 0, 0⟩)).warnings = 1 ↔
      (Okx.isValid (Okx.PropVal.val (Okx.JSNum.fin 2500)) ||
        Okx.isValid Okx.PropVal.undef) = true) :=
  Okx.net_mode_tpsl ⟨"UPDATE_TPSL", 0, Okx.PropVal.val (Okx.JSNum.fin 2500), Okx.PropVal.undef⟩
    ⟨Okx.PosSide.net, 1, 0, 0⟩ rfl rfl

/-- **C7 (counterexample)**: `UPDATE_TPSL` on a net-mode position with
stop-loss "0" and an empty take-profit makes zero exchange calls but also
emits zero warnings — the net-mode warning is only reached when at least
one proposed value is valid, refuting "always yields a warning outcome". -/
theorem Okx.net_mode_tpsl_cex :
    (Okx.dispatch ⟨"UPDATE_TPSL", 0, Okx.PropVal.val (Okx.JSNum.fin 0), Okx.PropVal.emptyStr⟩
        (some ⟨Okx.PosSide.net, 1, 0, 0⟩)).calls = [] ∧
    (Okx.dispatch ⟨"UPDATE_TPSL", 0, Okx.PropVal.val (Okx.JSNum.fin 0), Okx.PropVal.emptyStr⟩
        (some ⟨Okx.PosSide.net, 1, 0, 0⟩)).warnings = 0 := by
  constructor <;> rfl

/-- **C8 (amended)**: a proposed stop-loss/take-profit of `"0"`, `""`,
`undefined`, a `NaN` parse or a non-positive parse is rejected by
`isValid` and never forwarded; every forwarded value satisfies `isValid`;
and when neither value is valid no `updatePositionTPSL` call is made at
all.  However `isValid` has no finiteness check, so a value parsing to
+Infinity (e.g. the string "Infinity") counts as valid and is forwarded
(see the counterexample). -/
theorem Okx.tpsl_validity_forwarding :
    Okx.isValid Okx.PropVal.undef = false ∧
    Okx.isValid Okx.PropVal.emptyStr = false ∧
    Okx.isValid (Okx.PropVal.val Okx.JSNum.nan) = false ∧
    (∀ q : ℚ, q ≤ 0 → Okx.isValid (Okx.PropVal.val (Okx.JSNum.fin q)) = false) ∧
    (∀ (dec : Okx.ExecDecision) (pos? : Option Okx.Position) (ps : Okx.PosSide)
        (sz : ℚ) (sl tp : Option Okx.PropVal),
      Okx.ExchangeCall.updateTPSL ps sz sl tp ∈ (Okx.dispatch dec pos?).calls →
        (∀ v, sl = some v → Okx.isValid v = true) ∧
        (∀ v, tp = some v → Okx.isValid v = true)) ∧
    (∀ (dec : Okx.ExecDecision) (pos? : Option Okx.Position),
      Okx.isValid dec.stop_loss = false → Okx.isValid dec.profit_target = false →
      ∀ (ps : Okx.PosSide) (sz : ℚ) (sl tp : Option Okx.PropVal),
        Okx.ExchangeCall.updateTPSL ps sz sl tp ∉ (Okx.dispatch dec pos?).calls) := by
  refine ⟨rfl, rfl, rfl, fun q hq => ?_, ?_, ?_⟩
  · simp [Okx.isValid, not_lt.2 hq]
  · intro dec pos? ps sz sl tp hmem
    rw [Okx.dispatch] at hmem
    simp only at hmem
    rcases List.mem_append.1 hmem with hmain | hroll
    · rw [Okx.dispatchMain.eq_def] at hmain
      split at hmain
      · cases pos? with
        | none => simp at hmain
        | some p =>
          simp only at hmain
          split at hmain
          · split at hmain
            · simp at hmain
            · simp only [List.mem_singleton] at hmain
              cases hmain
              constructor
              · intro v hv
                split at hv
                · cases hv
                  assumption
                · cases hv
              · intro v hv
                split at hv
                · cases hv
                  assumption
                · cases hv
          · simp at hmain
      · split at hmain
        · simp at hmain
        · simp only [List.mem_singleton] at hmain
          cases hmain
    · rw [Okx.dispatchRolling.eq_def] at hroll
      split at hroll
      · cases pos? with
        | none => simp at hroll
        | some p =>
          simp only at hroll
          split at hroll
          · simp only [List.mem_singleton] at hroll
            cases hroll
          · simp at hroll
      · simp at hroll
  · intro dec pos? hsl htp ps sz sl tp hmem
    rw [Okx.dispatch] at hmem
    simp only at hmem
    rcases List.mem_append.1 hmem with hmain | hroll
    · rw [Okx.dispatchMain.eq_def] at hmain
      split at hmain
      · cases pos? with
        | none => simp at hmain
        | some p =>
          simp only [hsl, htp, Bool.or_self] at hmain
          simp at hmain
      · split at hmain
        · simp at hmain
        · simp only [List.mem_singleton] at hmain
          cases hmain
    · rw [Okx.dispatchRolling.eq_def] at hroll
      split at hroll
      · cases pos? with
        | none => simp at hroll
        | some p =>
          simp only at hroll
          split at hroll
          · simp only [List.mem_singleton] at hroll
            cases hroll
          · simp at hroll
      · simp at hroll

/-- Witness for `Okx.tpsl_validity_forwarding`: a value parsing to −1 is
invalid, and with stop-loss "0" and empty take-profit no `updateTPSL`
call appears in the dispatch of an `UPDATE_TPSL` decision on a long
position. -/
theorem Okx.tpsl_validity_forwarding_witness :
    Okx.isValid (Okx.PropVal.val (Okx.JSNum.fin (-1))) = false ∧
    Okx.ExchangeCall.updateTPSL Okx.PosSide.long 1 none none ∉
      (Okx.dispatch ⟨"UPDATE_TPSL", 0, Okx.PropVal.val (Okx.JSNum.fin 0), Okx.PropVal.emptyStr⟩
        (some ⟨Okx.PosSide.long, 1, 0, 0⟩)).calls :=
  ⟨Okx.tpsl_validity_forwarding.2.2.2.1 (-1) (by norm_num),
   Okx.tpsl_validity_forwarding.2.2.2.2.2
     ⟨"UPDATE_TPSL", 0, Okx.PropVal.val (Okx.JSNum.fin 0), Okx.PropVal.emptyStr⟩
     (some ⟨Okx.PosSide.long, 1, 0, 0⟩) rfl rfl Okx.PosSide.long 1 none none⟩

/-- **C8 (counterexample)**: a proposed stop-loss parsing to +Infinity —
not a finite number — passes `isValid` and is forwarded verbatim in the
`updatePositionTPSL` call, refuting "any value not parsing to a finite
number strictly greater than 0 … is never forwarded". -/
theorem Okx.tpsl_validity_forwarding_cex :
    Okx.isValid (Okx.PropVal.val Okx.JSNum.posInf) = true ∧
    (Okx.dispatch ⟨"UPDATE_TPSL", 0, Okx.PropVal.val Okx.JSNum.posInf, Okx.PropVal.undef⟩
        (some ⟨Okx.PosSide.long, 1, 0, 0⟩)).calls =
      [Okx.ExchangeCall.updateTPSL Okx.PosSide.long 1
        (some (Okx.PropVal.val Okx.JSNum.posInf)) none] := by
  constructor <;> rfl

/-- **C9** (failing input): `calcEMA` on the empty closing-price series
returns the out-of-bounds read `prices[prices.length - 1] = undefined`
(modelled `none`) instead of a defined neutral value — for every period,
including the production periods 12/20/26/50. -/
theorem Okx.calcEMA_empty_undefined : ∀ period : ℕ, Okx.calcEMA [] period = none := by
  intro p
  rw [Okx.calcEMA.eq_def]
  split <;> rfl

/-- The delta list of a series has one element fewer than the series. -/
theorem Okx.priceDeltas_length (l : List ℚ) :
    (Okx.priceDeltas l).length = l.length - 1 := by
  induction l with
  | nil => rfl
  | cons a t ih =>
    cases t with
    | nil => rfl
    | cons b t' =>
      rw [Okx.priceDeltas]
      simp only [List.length_cons] at ih ⊢
      omega

/-- Pointwise: the `j`-th delta is `prices[j+1] - prices[j]`. -/
theorem Okx.priceDeltas_getD (l : List ℚ) :
    ∀ j : ℕ, j + 1 < l.length →
      (Okx.priceDeltas l).getD j 0 = l.getD (j + 1) 0 - l.getD j 0 := by
  induction l with
  | nil => intro j h; simp at h
  | cons a t ih =>
    intro j h
    cases t with
    | nil => simp at h
    | cons b t' =>
      cases j with
      | zero => rfl
      | succ j' =>
        rw [Okx.priceDeltas]
        simp only [List.getD_cons_succ]
        exact ih j' (by simp only [List.length_cons] at h ⊢; omega)

/-- A fold over the index range `[a, a+n)` reading consecutive differences
of `prices` equals the fold over the corresponding segment of the delta
list. -/
theorem Okx.foldl_range'_deltas {α : Type} (prices : List ℚ) (step : α → ℚ → α) :
    ∀ (n a : ℕ) (s : α), 1 ≤ a → a + n ≤ prices.length →
      (List.range' a n).foldl
          (fun s i => step s (prices.getD i 0 - prices.getD (i - 1) 0)) s
        = (((Okx.priceDeltas prices).drop (a - 1)).take n).foldl step s := by
  intro n
  induction n with
  | zero => intro a s _ _; rfl
  | succ n ih =>
    intro a s h1 h2
    rw [List.range'_succ]
    simp only [List.foldl_cons]
    have hlen : a - 1 < (Okx.priceDeltas prices).length := by
      rw [Okx.priceDeltas_length]; omega
    have hdrop : (Okx.priceDeltas prices).drop (a - 1) =
        (Okx.priceDeltas prices).getD (a - 1) 0 ::
          (Okx.priceDeltas prices).drop (a - 1 + 1) := by
      rw [List.drop_eq_getElem_cons hlen, List.getD_eq_getElem _ _ hlen]
    rw [hdrop, List.take_succ_cons, List.foldl_cons]
    have hd : (Okx.priceDeltas prices).getD (a - 1) 0 =
        prices.getD a 0 - prices.getD (a - 1) 0 := by
      have h := Okx.priceDeltas_getD prices (a - 1) (by omega)
      rwa [Nat.sub_add_cancel h1] at h
    rw [hd]
    have h := ih (a + 1) (step s (prices.getD a 0 - prices.getD (a - 1) 0))
      (by omega) (by omega)
    have he : a + 1 - 1 = a - 1 + 1 := by omega
    rw [he] at h
    exact h

/-- The source's single gains/losses accumulation loop equals the pair of
positive-part and negative-part sums. -/
theorem Okx.foldl_gains_losses (xs : List ℚ) :
    ∀ g0 l0 : ℚ,
      xs.foldl (fun gl c => if 0 < c then (gl.1 + c, gl.2) else (gl.1, gl.2 - c)) (g0, l0)
        = (g0 + (xs.map fun c => max c 0).sum, l0 + (xs.map fun c => max (-c) 0).sum) := by
  induction xs with
  | nil => intro g0 l0; simp
  | cons c xs ih =>
    intro g0 l0
    simp only [List.foldl_cons, List.map_cons, List.sum_cons]
    by_cases h : 0 < c
    · rw [if_pos h, ih, max_eq_left h.le, max_eq_right (by linarith : -c ≤ 0)]
      simp only [Prod.mk.injEq]
      constructor <;> ring
    · push_neg at h
      rw [if_neg (not_lt.2 h), ih, max_eq_right h, max_eq_left (by linarith : 0 ≤ -c)]
      simp only [Prod.mk.injEq]
      constructor <;> ring

/-- `if 0 < c then c else 0` is the positive part `max c 0`. -/
theorem Okx.posPart_eq_max (c : ℚ) : (if 0 < c then c else 0) = max c 0 := by
  rcases le_or_lt c 0 with h | h
  · rw [if_neg (not_lt.2 h), max_eq_right h]
  · rw [if_pos h, max_eq_left h.le]

/-- `if c < 0 then -c else 0` is the negative part `max (-c) 0`. -/
theorem Okx.negPart_eq_max (c : ℚ) : (if c < 0 then -c else 0) = max (-c) 0 := by
  rcases lt_or_le c 0 with h | h
  · rw [if_pos h, max_eq_left (by linarith)]
  · rw [if_neg (not_lt.2 h), max_eq_right (by linarith)]

/-- **C6 (amended)**: the smoothed `calcRSI` of `src/unnamed/part_003`
(also `part_004`) computes exactly the spec's reference RSI, for every
closing-price series and every period.  (The `calcRSI` of
`src/services/aiService.ts` omits the smoothing loop and diverges — see
the counterexample.) -/
theorem Okx.rsi_matches_spec (prices : List ℚ) (period : ℕ) :
    Okx.calcRSI prices period = Okx.rsiSpec prices period := by
  rw [Okx.calcRSI, Okx.rsiSpec]
  by_cases hlen : prices.length < period + 1
  · rw [if_pos hlen, if_pos hlen]
  · rw [if_neg hlen, if_neg hlen]
    push_neg at hlen
    have hinit := Okx.foldl_range'_deltas prices
      (fun gl c => if 0 < c then (gl.1 + c, gl.2) else (gl.1, gl.2 - c))
      period 1 ((0 : ℚ), (0 : ℚ)) (le_refl 1) (by omega)
    simp only at hinit
    rw [hinit, Nat.sub_self, List.drop_zero,
      Okx.foldl_gains_losses ((Okx.priceDeltas prices).take period) 0 0]
    simp only [zero_add]
    have hsm := Okx.foldl_range'_deltas prices
      (fun s c =>
        ((s.1 * ((period : ℚ) - 1) + (if 0 < c then c else 0)) / period,
         (s.2 * ((period : ℚ) - 1) + (if c < 0 then -c else 0)) / period))
      (prices.length - (period + 1)) (period + 1)
      ((((Okx.priceDeltas prices).take period).map fun c => max c 0).sum / period,
       (((Okx.priceDeltas prices).take period).map fun c => max (-c) 0).sum / period)
      (by omega) (by omega)
    simp only at hsm
    rw [hsm, Nat.add_sub_cancel]
    have htake : ((Okx.priceDeltas prices).drop period).take (prices.length - (period + 1)) =
        (Okx.priceDeltas prices).drop period := by
      apply List.take_of_length_le
      rw [List.length_drop, Okx.priceDeltas_length]
      omega
    rw [htake]
    have hext : ((Okx.priceDeltas prices).drop period).foldl
        (fun s c =>
          ((s.1 * ((period : ℚ) - 1) + (if 0 < c then c else 0)) / period,
           (s.2 * ((period : ℚ) - 1) + (if c < 0 then -c else 0)) / period))
        ((((Okx.priceDeltas prices).take period).map fun c => max c 0).sum / period,
         (((Okx.priceDeltas prices).take period).map fun c => max (-c) 0).sum / period)
        = ((Okx.priceDeltas prices).drop period).foldl (Okx.wilderStep period)
        ((((Okx.priceDeltas prices).take period).map fun c => max c 0).sum / period,
         (((Okx.priceDeltas prices).take period).map fun c => max (-c) 0).sum / period) := by
      apply List.foldl_ext
      intro s c _
      rw [Okx.wilderStep, Okx.posPart_eq_max, Okx.negPart_eq_max]
    rw [hext]

/-- **C6 (counterexample)**: on the series [1, 2, 3, 1] with period 2, the
`calcRSI` of `src/services/aiService.ts` returns 100 (it only sees the
first two deltas, both gains, and never smooths in the final loss), while
the spec's reference RSI — and the smoothed `calcRSI` — return 100/3. -/
theorem Okx.rsi_matches_spec_cex :
    Okx.calcRSI_ai [1, 2, 3, 1] 2 = 100 ∧
    Okx.rsiSpec [1, 2, 3, 1] 2 = 100 / 3 ∧
    Okx.calcRSI_ai [1, 2, 3, 1] 2 ≠ Okx.rsiSpec [1, 2, 3, 1] 2 := by
  have h1 : Okx.calcRSI_ai [1, 2, 3, 1] 2 = 100 := by
    norm_num [Okx.calcRSI_ai, List.range', List.foldl, List.getD]
  have h2 : Okx.rsiSpec [1, 2, 3, 1] 2 = 100 / 3 := by
    norm_num [Okx.rsiSpec, Okx.priceDeltas, Okx.wilderStep, List.foldl]
  exact ⟨h1, h2, by rw [h1, h2]; norm_num⟩
